import Mathlib

/-!
Verification of the slait register-capture pipeline.

Shallow embedding of:
- `src/backend/run_sandbox_job.py` (orchestrator `run_job` and its dump
  parser `parse_register_dump` with `_BP_RE` / `_REG_RE`),
- `src/backend/parse_register_dump.py` (in-sandbox dump parser `REG_RE`),
- `src/backend/sandbox_scripts/parse_registers_multiline.py`
  (`parse_config_line`, `load_lines_config`, `generate_gdb_script`).

Text is modelled as `List Char`; Python machine-free integers as `Nat`/`Int`;
fallible operations (`int.to_bytes` overflow, exceptions in `run_job`)
return `Except`.
-/

namespace Slait

/-! ## Character classes (Python `re` classes, ASCII as in the source regexes) -/

/-- Python regex whitespace class (space, tab, newline, carriage return,
vertical tab, form feed), by ASCII code. -/
def isWS (c : Char) : Bool :=
  c.toNat == 32 || c.toNat == 9 || c.toNat == 10 || c.toNat == 13 ||
  c.toNat == 11 || c.toNat == 12

/-- ASCII digit, regex class `\d` (codes 48–57, `0`–`9`). -/
def isDigitC (c : Char) : Bool := 48 ≤ c.toNat && c.toNat ≤ 57

/-- Regex class `[a-zA-Z]` (codes 97–122 and 65–90). -/
def isAlphaC (c : Char) : Bool :=
  (97 ≤ c.toNat && c.toNat ≤ 122) || (65 ≤ c.toNat && c.toNat ≤ 90)

/-- Regex class `[a-zA-Z0-9]`. -/
def isAlnumC (c : Char) : Bool := isAlphaC c || isDigitC c

/-- Regex class `[0-9a-fA-F]` (digits, `a`–`f`, `A`–`F`). -/
def isHexC (c : Char) : Bool :=
  isDigitC c || (97 ≤ c.toNat && c.toNat ≤ 102) || (65 ≤ c.toNat && c.toNat ≤ 70)

/-- Skip a (possibly empty) whitespace run: regex `\s*`. -/
def dropWS (cs : List Char) : List Char := cs.dropWhile isWS

/-- Python `str.strip()` on a list of characters. -/
def trimC (cs : List Char) : List Char :=
  dropWS (dropWS cs.reverse).reverse

/-- Match a literal token, returning the rest of the input. -/
def expectLit : List Char → List Char → Option (List Char)
  | [], cs => some cs
  | _ :: _, [] => none
  | l :: ls, c :: cs => if c == l then expectLit ls cs else none

/-- Regex `\s+` followed by maximal-munch of the run: one mandatory
whitespace character, then any further whitespace. -/
def ws1 (cs : List Char) : Option (List Char) :=
  match cs with
  | [] => none
  | c :: rest => if isWS c then some (dropWS rest) else none

/-- Numeric value of a decimal digit string (Python `int(s)` on `\d+`). -/
def digitsToNat (ds : List Char) : Nat :=
  ds.foldl (fun acc c => acc * 10 + (c.toNat - 48)) 0

/-- Numeric value of one hexadecimal digit. -/
def hexVal (c : Char) : Nat :=
  if isDigitC c then c.toNat - 48
  else if 'a' ≤ c && c ≤ 'f' then c.toNat - 87
  else c.toNat - 55

/-- Numeric value of a hex digit string (Python `int(s, 16)`). -/
def hexToNat (ds : List Char) : Nat :=
  ds.foldl (fun acc c => acc * 16 + hexVal c) 0

/-- Split a character list at every occurrence of the separator
(Python `str.split(sep)` shape: n separators yield n+1 pieces). -/
def splitOnC (sep : Char) : List Char → List (List Char)
  | [] => [[]]
  | c :: cs =>
    if c == sep then [] :: splitOnC sep cs
    else
      match splitOnC sep cs with
      | [] => [[c]]
      | l :: ls => (c :: l) :: ls

/-- Python `str.splitlines` as used by the dump parser (newline-separated;
carriage returns are later removed by the per-line `strip`). -/
def splitLinesC (cs : List Char) : List (List Char) := splitOnC '\n' cs

/-! ## The source regexes as deterministic matchers

`_BP_RE  = ^===\s*Breakpoint\s+at\s+line\s+(\d+)\s*===\s*$`
`_REG_RE = ^([a-zA-Z][a-zA-Z0-9]{1,4}):\s*(0x[0-9a-fA-F]+)\s*$`
(both from `run_sandbox_job.py`), and
`REG_RE  = ^([a-zA-Z][a-zA-Z0-9]{1,4}):\s+([0-9a-fA-F]+)$`
(from `parse_register_dump.py`).  All three patterns are backtracking-free
on their inputs, so maximal-munch scanning is equivalent. -/

/-- `_BP_RE`: header line `=== Breakpoint at line <digits> ===`.
Returns the captured line number. -/
def bpMatch (cs : List Char) : Option Nat := do
  let cs ← expectLit "===".data cs
  let cs := dropWS cs
  let cs ← expectLit "Breakpoint".data cs
  let cs ← ws1 cs
  let cs ← expectLit "at".data cs
  let cs ← ws1 cs
  let cs ← expectLit "line".data cs
  let cs ← ws1 cs
  let ds := cs.takeWhile isDigitC
  let cs := cs.dropWhile isDigitC
  if ds.isEmpty then none
  else
    let cs := dropWS cs
    let cs ← expectLit "===".data cs
    if (dropWS cs).isEmpty then some (digitsToNat ds) else none

/-- `_REG_RE` (orchestrator side): `<name>: 0x<hex>`, name a letter plus
1–4 alphanumerics, a mandatory `0x` prefix, optional whitespace around the
value.  Returns the captured name and the hex-digit characters. -/
def regMatchO (cs : List Char) : Option (String × List Char) :=
  match cs with
  | [] => none
  | c :: rest =>
    if isAlphaC c then
      let nm := rest.takeWhile isAlnumC
      let r2 := rest.dropWhile isAlnumC
      if 1 ≤ nm.length && nm.length ≤ 4 then
        match r2 with
        | ':' :: r3 =>
          match dropWS r3 with
          | '0' :: 'x' :: r5 =>
            let hx := r5.takeWhile isHexC
            let r6 := r5.dropWhile isHexC
            if hx.isEmpty then none
            else if (dropWS r6).isEmpty then some ((c :: nm).asString, hx)
            else none
          | _ => none
        | _ => none
      else none
    else none

/-- `REG_RE` (sandbox side, `parse_register_dump.py`): `<name>: <hex>`,
at least one whitespace character after the colon, no `0x` prefix. -/
def regMatchS (cs : List Char) : Option (String × List Char) :=
  match cs with
  | [] => none
  | c :: rest =>
    if isAlphaC c then
      let nm := rest.takeWhile isAlnumC
      let r2 := rest.dropWhile isAlnumC
      if 1 ≤ nm.length && nm.length ≤ 4 then
        match r2 with
        | ':' :: r3 =>
          match ws1 r3 with
          | some r4 =>
            let hx := r4.takeWhile isHexC
            let r5 := r4.dropWhile isHexC
            if hx.isEmpty then none
            else if r5.isEmpty then some ((c :: nm).asString, hx)
            else none
          | none => none
        | _ => none
      else none
    else none

/-! ## Multi-representation register values (`run_sandbox_job.py` helpers) -/

/-- Lowercase hexadecimal digit character for a value below 16. -/
def hexDigitChar (n : Nat) : Char :=
  if n < 10 then Char.ofNat (48 + n) else Char.ofNat (87 + n)

/-- Hex digits, least-significant first, with explicit fuel (the fuel
`n` always suffices since a number has at most `n` hex digits). -/
def natToHexAux (fuel n : Nat) : List Char :=
  match fuel with
  | 0 => []
  | f + 1 => if n = 0 then [] else hexDigitChar (n % 16) :: natToHexAux f (n / 16)

/-- Hex digits of `n`, least-significant first (empty for 0). -/
def natToHexRev (n : Nat) : List Char := natToHexAux n n

/-- C `%lx` / Python `%x` rendering: lowercase hex, no prefix, no padding. -/
def natToHex (n : Nat) : String :=
  if n = 0 then "0" else (natToHexRev n).reverse.asString

/-- Python `f"{u:016x}"`: lowercase hex left-padded with zeros to width 16. -/
def hexPad16 (u : Nat) : String :=
  let h := natToHex u
  (List.replicate (16 - h.length) '0').asString ++ h

/-- `u64_to_bytes_le`: Python `u.to_bytes(8, byteorder="little",
signed=False)`.  Raises `OverflowError` (here: `none`) when the value does
not fit in 8 bytes. -/
def u64_to_bytes_le (u : Nat) : Option (List Nat) :=
  if u < 2 ^ 64 then some ((List.range 8).map (fun i => u / 2 ^ (8 * i) % 256))
  else none

/-- `bytes_to_hex_pairs`: space-separated two-digit hex of each byte. -/
def bytes_to_hex_pairs (b : List Nat) : String :=
  String.intercalate " " (b.map (fun x => (if x < 16 then "0" else "") ++ natToHex x))

/-- `bytes_to_ascii`: printable bytes as themselves, the rest as a dot. -/
def bytes_to_ascii (b : List Nat) : String :=
  (b.map (fun x => if 32 ≤ x && x ≤ 126 then Char.ofNat x else '.')).asString

/-- Signed view from the source:
`i64 = u64 - (1 << 64) if (u64 & (1 << 63)) else u64`. -/
def signedView (u : Nat) : Int :=
  if u &&& (1 <<< 63) != 0 then (u : Int) - 2 ^ 64 else (u : Int)

/-- One parsed register value with its derived representations
(the dict built at `run_sandbox_job.py:59-65`). -/
structure RegValue where
  hex : String
  u64 : Nat
  i64 : Int
  bytes_le : String
  ascii_le : String
deriving DecidableEq

/-- Build the representation record for an accepted register line; `none`
models the `OverflowError` raised by `u64_to_bytes_le` on values ≥ 2^64. -/
def mkRegValue (u : Nat) : Option RegValue :=
  match u64_to_bytes_le u with
  | none => none
  | some b =>
    some { hex := "0x" ++ hexPad16 u, u64 := u, i64 := signedView u,
           bytes_le := bytes_to_hex_pairs b, ascii_le := bytes_to_ascii b }

/-- One captured breakpoint block: line number plus the registers in
first-seen order (Python dict insertion order). -/
structure Breakpoint where
  line : Nat
  registers : List (String × RegValue)
deriving DecidableEq

/-- Python dict assignment `d[k] = v`: overwrite in place if the key is
present, else append. -/
def insertReg (regs : List (String × RegValue)) (nm : String) (v : RegValue) :
    List (String × RegValue) :=
  if regs.any (fun p => p.1 == nm) then
    regs.map (fun p => if p.1 == nm then (nm, v) else p)
  else regs ++ [(nm, v)]

/-! ## The orchestrator's dump parser (`run_sandbox_job.py:parse_register_dump`) -/

/-- Process one raw line of the dump: strip, skip blanks, open a new block
on a header, record a register only while a block is open, ignore noise.
The `Except.error` branch is the `OverflowError` escaping from
`u64_to_bytes_le` on an accepted register value ≥ 2^64. -/
def stepLine (bps : List Breakpoint) (cur : Option Breakpoint) (raw : List Char) :
    Except String (List Breakpoint × Option Breakpoint) :=
  let line := trimC raw
  if line.isEmpty then .ok (bps, cur)
  else
    match bpMatch line with
    | some n => .ok (bps ++ cur.toList, some { line := n, registers := [] })
    | none =>
      match regMatchO line with
      | some (nm, hx) =>
        match cur with
        | some c =>
          match mkRegValue (hexToNat hx) with
          | some rv => .ok (bps, some { line := c.line, registers := insertReg c.registers nm rv })
          | none => .error "OverflowError: int too big to convert"
        | none => .ok (bps, cur)
      | none => .ok (bps, cur)

/-- The line loop of `parse_register_dump`, with the final flush of an
open block at end of input. -/
def parseLoop : List (List Char) → List Breakpoint → Option Breakpoint →
    Except String (List Breakpoint)
  | [], bps, cur => .ok (bps ++ cur.toList)
  | l :: ls, bps, cur =>
    match stepLine bps cur l with
    | .error e => .error e
    | .ok (bps', cur') => parseLoop ls bps' cur'

/-- `parse_register_dump` from `run_sandbox_job.py`: split into lines and
scan.  `Except.error` models an uncaught exception. -/
def parse_register_dump (raw : String) : Except String (List Breakpoint) :=
  parseLoop (splitLinesC raw.data) [] none

/-- Number of header lines in a line list (lines whose stripped form
matches `_BP_RE`). -/
def headerCountL (lines : List (List Char)) : Nat :=
  lines.countP (fun l => (bpMatch (trimC l)).isSome)

/-- Number of header lines in a raw dump text. -/
def headerCount (raw : String) : Nat := headerCountL (splitLinesC raw.data)

/-! ## Config loader (`parse_registers_multiline.py:parse_config_line`) -/

/-- Python `item.split(":", 1)` when a colon is present: the text before
the first colon and the text after it; `none` when there is no colon. -/
def splitFirstColon : List Char → Option (List Char × List Char)
  | [] => none
  | c :: cs =>
    if c == ':' then some ([], cs)
    else
      match splitFirstColon cs with
      | none => none
      | some (a, b) => some (c :: a, b)

/-- One `<reg>:<flag>` field of a config line: the register is tracked iff
the colon is present and the stripped flag is exactly `1`; a field without
a colon, or with any other flag, is skipped. -/
def trackItem (item : List Char) : Option String :=
  match splitFirstColon item with
  | none => none
  | some (r, f) => if trimC f == "1".data then some (trimC r).asString else none

/-- The comma-split, stripped, nonempty fields of a raw config line
(`[p.strip() for p in raw.split(",") if p.strip()]`). -/
def configParts (raw : String) : List (List Char) :=
  ((splitOnC ',' raw.data).map trimC).filter (fun p => !p.isEmpty)

/-- The body of `parse_config_line` after comma-splitting: the first field
must be `line:<digits>`; every later field contributes a tracked register
exactly when `trackItem` accepts it. -/
def parse_config_parts (parts : List (List Char)) : Except String (Nat × List String) :=
  match parts with
  | [] => .error "Bad config line (missing line:...)"
  | p0 :: rest =>
    match expectLit "line:".data p0 with
    | none => .error "Bad config line (missing line:...)"
    | some afterTag =>
      let ls := trimC afterTag
      if ls.isEmpty then .error "Bad line number"
      else if !ls.all isDigitC then .error "Bad line number"
      else .ok (digitsToNat ls, rest.filterMap trackItem)

/-- `parse_config_line`: one capture-point configuration line to
`(line number, tracked registers)`, or a `ValueError`. -/
def parse_config_line (raw : String) : Except String (Nat × List String) :=
  parse_config_parts (configParts raw)

/-! ## Capture-script generator (`generate_gdb_script`)

The response block for a capture point writes, for each tracked register,
the directive `printf "<reg>: %lx\n", $<reg>`.  When gdb executes it, the
line that lands in the dump is the register name, a colon and one space,
and the value of the register rendered by C `%lx`: lowercase hexadecimal,
no `0x` prefix, no padding. -/

/-- The register line a generated `printf "<reg>: %lx\n", $<reg>`
directive causes to be printed inside a response block
(`parse_registers_multiline.py:66`). -/
def genRegLine (reg : String) (v : Nat) : String :=
  reg ++ ": " ++ natToHex v

/-! ## Execution orchestrator (`run_sandbox_job.py:run_job`)

The external docker/filesystem effects are modelled by an environment
record fixing the outcome of each external step; `run_job` is then a pure
function of that record.  Exceptions become `Except.error`; the `finally`
block becomes an explicitly returned `Cleanup` record. -/

/-- Outcomes of the external steps a single job performs, in protocol
order.  `rmFails` / `rmtreeFails` say whether the two teardown actions in
the `finally` block would raise (the source swallows both). -/
structure ExecEnv where
  asmExists : Bool
  linesExists : Bool
  createOk : Bool
  createStdout : String
  startOk : Bool
  cpAsmOk : Bool
  cpLinesOk : Bool
  execCode : Int
  execStdout : String
  execStderr : String
  cpProgOk : Bool
  cpRegOk : Bool
  progText : String
  regText : String
  rmFails : Bool
  rmtreeFails : Bool
deriving DecidableEq

/-- Which input artifact a path error concerns. -/
inductive InputKind where
  | asm
  | linesTxt
deriving DecidableEq

/-- Which output artifact failed to be retrieved. -/
inductive ArtifactKind where
  | programOutput
  | registerDump
deriving DecidableEq

/-- The exceptions `run_job` can raise, with the context each one carries
in its message. -/
inductive JobError where
  | fileNotFound (which : InputKind)
  | createFailed
  | emptyContainerId
  | startFailed
  | copyInFailed (which : InputKind)
  | missingArtifact (which : ArtifactKind) (logs : String)
  | parseFault (msg : String)
  | executionFailure (exitCode : Int) (logs stdoutText regText : String)
deriving DecidableEq

/-- The JSON payload assembled on success. -/
structure JobPayload where
  ok : Bool
  stdout : String
  breakpoints : List Breakpoint
  image : String
deriving DecidableEq

/-- The tuple `run_job` returns on success. -/
structure JobSuccess where
  stdoutText : String
  regText : String
  logs : String
  payload : JobPayload
deriving DecidableEq

/-- What happened in the `finally` block (and whether the temporary
directory / container were ever acquired at all). -/
structure Cleanup where
  tmpAllocated : Bool
  containerCreated : Bool
  containerReleaseAttempted : Bool
  containerReleaseFailed : Bool
  tmpReleaseAttempted : Bool
  tmpReleaseFailed : Bool
deriving DecidableEq

/-- Cleanup record for the early-exit paths on which nothing was acquired. -/
def noCleanup : Cleanup :=
  { tmpAllocated := false, containerCreated := false,
    containerReleaseAttempted := false, containerReleaseFailed := false,
    tmpReleaseAttempted := false, tmpReleaseFailed := false }

/-- The diagnostic log captured from the in-container execution step:
`(stdout or "") + ("\n" if stdout else "") + (stderr or "")`. -/
def jobLogs (env : ExecEnv) : String :=
  if env.execStdout = "" then env.execStderr
  else env.execStdout ++ "\n" ++ env.execStderr

/-- The `try` body of `run_job`: create and start the container, copy the
inputs in, run the pipeline, retrieve both artifacts (a missing one raises
with the captured logs), parse the dump, and only then fail on a nonzero
exit code — with the parsed texts attached. -/
def jobBody (image : String) (env : ExecEnv) : Except JobError JobSuccess :=
  if !env.createOk then .error .createFailed
  else if (trimC env.createStdout.data).isEmpty then .error .emptyContainerId
  else if !env.startOk then .error .startFailed
  else if !env.cpAsmOk then .error (.copyInFailed .asm)
  else if !env.cpLinesOk then .error (.copyInFailed .linesTxt)
  else
    let logs := jobLogs env
    if !env.cpProgOk then .error (.missingArtifact .programOutput logs)
    else if !env.cpRegOk then .error (.missingArtifact .registerDump logs)
    else
      match parse_register_dump env.regText with
      | .error e => .error (.parseFault e)
      | .ok bps =>
        if env.execCode ≠ 0 then
          .error (.executionFailure env.execCode logs env.progText env.regText)
        else
          .ok { stdoutText := env.progText, regText := env.regText, logs := logs,
                payload := { ok := true, stdout := env.progText,
                             breakpoints := bps, image := image } }

/-- `run_job`: the input-path checks precede any acquisition; afterwards
the temporary directory exists and the `finally` block always runs.  The
two release actions are attempted unconditionally (container release only
when a container id was obtained), their failures recorded but swallowed. -/
def run_job (image : String) (env : ExecEnv) (keepTmp : Bool) :
    Except JobError JobSuccess × Cleanup :=
  if !env.asmExists then (.error (.fileNotFound .asm), noCleanup)
  else if !env.linesExists then (.error (.fileNotFound .linesTxt), noCleanup)
  else
    let created := env.createOk && !(trimC env.createStdout.data).isEmpty
    (jobBody image env,
     { tmpAllocated := true, containerCreated := created,
       containerReleaseAttempted := created,
       containerReleaseFailed := created && env.rmFails,
       tmpReleaseAttempted := !keepTmp,
       tmpReleaseFailed := !keepTmp && env.rmtreeFails })

/-- An environment with the two teardown-failure switches replaced. -/
def withCleanupFlags (env : ExecEnv) (b b' : Bool) : ExecEnv :=
  { env with rmFails := b, rmtreeFails := b' }

/-! ## Helper lemmas -/

lemma data_asString (l : List Char) : (l.asString).data = l := rfl

lemma takeWhile_append_of_all {p : Char → Bool} {l t : List Char} {c : Char}
    (hl : l.all p = true) (hc : p c = false) :
    (l ++ c :: t).takeWhile p = l := by
  induction l with
  | nil => simp [List.takeWhile, hc]
  | cons a as ih =>
    simp only [List.all_cons, Bool.and_eq_true] at hl
    simp [List.takeWhile, hl.1, ih hl.2]

lemma dropWhile_append_of_all {p : Char → Bool} {l t : List Char} {c : Char}
    (hl : l.all p = true) (hc : p c = false) :
    (l ++ c :: t).dropWhile p = c :: t := by
  induction l with
  | nil => simp [List.dropWhile, hc]
  | cons a as ih =>
    simp only [List.all_cons, Bool.and_eq_true] at hl
    simp [List.dropWhile, hl.1, ih hl.2]

lemma takeWhile_of_all {p : Char → Bool} {l : List Char} (hl : l.all p = true) :
    l.takeWhile p = l :=
  List.takeWhile_eq_self_iff.mpr (List.all_eq_true.mp hl)

lemma dropWhile_of_all {p : Char → Bool} {l : List Char} (hl : l.all p = true) :
    l.dropWhile p = [] :=
  List.dropWhile_eq_nil_iff.mpr (List.all_eq_true.mp hl)

lemma hexDigitChar_hex {n : Nat} (h : n < 16) : isHexC (hexDigitChar n) = true := by
  interval_cases n <;> decide

lemma hex_not_ws {c : Char} (h : isHexC c = true) : isWS c = false := by
  rw [isHexC, isDigitC] at h
  rw [isWS, ← Bool.not_eq_true]
  simp only [Bool.or_eq_true, Bool.and_eq_true, decide_eq_true_eq, beq_iff_eq] at h ⊢
  omega

lemma natToHexAux_all_hex (fuel : Nat) : ∀ n, (natToHexAux fuel n).all isHexC = true := by
  induction fuel with
  | zero => intro n; rfl
  | succ f ih =>
    intro n
    rw [natToHexAux]
    split
    · rfl
    · simp only [List.all_cons, Bool.and_eq_true]
      exact ⟨hexDigitChar_hex (Nat.mod_lt _ (by omega)), ih (n / 16)⟩

lemma natToHexRev_all_hex (n : Nat) : (natToHexRev n).all isHexC = true :=
  natToHexAux_all_hex n n

lemma natToHex_all_hex (n : Nat) : ((natToHex n).data).all isHexC = true := by
  rw [natToHex]
  split
  · decide
  · rw [data_asString, List.all_reverse]
    exact natToHexRev_all_hex n

lemma natToHex_ne_nil (n : Nat) : (natToHex n).data ≠ [] := by
  rw [natToHex]
  split
  · decide
  · rename_i h
    rw [data_asString]
    simp only [ne_eq, List.reverse_eq_nil_iff]
    rw [natToHexRev]
    cases n with
    | zero => exact absurd rfl h
    | succ m =>
      rw [natToHexAux]
      simp

lemma dropWS_of_all_hex {l : List Char} (hl : l.all isHexC = true) : dropWS l = l := by
  cases l with
  | nil => rfl
  | cons c cs =>
    simp only [List.all_cons, Bool.and_eq_true] at hl
    simp [dropWS, List.dropWhile, hex_not_ws hl.1]

/-- `mkRegValue` succeeds exactly on 64-bit values and then records the
unsigned value and the two's-complement signed view. -/
lemma mkRegValue_spec {u : Nat} {rv : RegValue} (h : mkRegValue u = some rv) :
    u < 2 ^ 64 ∧ rv.u64 = u ∧
      rv.i64 = (if 2 ^ 63 ≤ u then (u : Int) - 2 ^ 64 else (u : Int)) := by
  rw [mkRegValue, u64_to_bytes_le] at h
  by_cases hu : u < 2 ^ 64
  · rw [if_pos hu] at h
    have h2 := Option.some.inj h
    refine ⟨hu, ?_, ?_⟩
    · rw [← h2]
    · rw [← h2]
      show signedView u = _
      rw [signedView]
      have hand : u &&& 1 <<< 63 = if u / 2 ^ 63 % 2 = 1 then 2 ^ 63 else 0 := by
        rw [Nat.shiftLeft_eq, one_mul, Nat.and_two_pow, Nat.testBit_to_div_mod]
        split <;> rename_i hb <;> simp [hb] <;> omega
      rw [hand]
      by_cases hle : 2 ^ 63 ≤ u
      · have hb : u / 2 ^ 63 % 2 = 1 := by omega
        rw [if_pos hb, if_pos hle]
        norm_num
      · have hb : ¬ u / 2 ^ 63 % 2 = 1 := by omega
        rw [if_neg hb, if_neg hle]
        norm_num
  · rw [if_neg hu] at h
    exact Option.noConfusion h

lemma mkRegValue_of_lt {u : Nat} (h : u < 2 ^ 64) : ∃ rv, mkRegValue u = some rv := by
  rw [mkRegValue, u64_to_bytes_le, if_pos h]
  exact ⟨_, rfl⟩

lemma bpMatch_nil : bpMatch [] = none := rfl

lemma bpMatch_none_of_empty {l : List Char} (h : (trimC l).isEmpty = true) :
    bpMatch (trimC l) = none := by
  rw [List.isEmpty_iff] at h
  rw [h, bpMatch_nil]

/-! ### Case lemmas for one step of the dump-parser loop -/

lemma stepLine_blank {l : List Char} (h : (trimC l).isEmpty = true)
    (bps : List Breakpoint) (cur : Option Breakpoint) :
    stepLine bps cur l = .ok (bps, cur) := by
  simp only [stepLine]
  rw [if_pos h]

lemma stepLine_header {l : List Char} {n : Nat} (h : bpMatch (trimC l) = some n)
    (bps : List Breakpoint) (cur : Option Breakpoint) :
    stepLine bps cur l = .ok (bps ++ cur.toList, some { line := n, registers := [] }) := by
  have hne : (trimC l).isEmpty = false := by
    cases he : (trimC l).isEmpty
    · rfl
    · rw [bpMatch_none_of_empty he] at h
      exact Option.noConfusion h
  simp only [stepLine]
  rw [if_neg (by simp [hne]), h]

lemma stepLine_ignore {l : List Char} (hbp : bpMatch (trimC l) = none)
    (hreg : regMatchO (trimC l) = none)
    (bps : List Breakpoint) (cur : Option Breakpoint) :
    stepLine bps cur l = .ok (bps, cur) := by
  simp only [stepLine]
  by_cases he : (trimC l).isEmpty = true
  · rw [if_pos he]
  · rw [if_neg he, hbp, hreg]

lemma stepLine_reg_idle {l : List Char} {nm : String} {hx : List Char}
    (hbp : bpMatch (trimC l) = none) (hreg : regMatchO (trimC l) = some (nm, hx))
    (bps : List Breakpoint) :
    stepLine bps none l = .ok (bps, none) := by
  have hne : (trimC l).isEmpty = false := by
    cases he : (trimC l).isEmpty
    · rfl
    · rw [List.isEmpty_iff] at he
      rw [he] at hreg
      exact Option.noConfusion hreg
  simp only [stepLine]
  rw [if_neg (by simp [hne]), hbp, hreg]

lemma stepLine_reg_inblock {l : List Char} {nm : String} {hx : List Char}
    (hbp : bpMatch (trimC l) = none) (hreg : regMatchO (trimC l) = some (nm, hx))
    (bps : List Breakpoint) (c : Breakpoint) :
    stepLine bps (some c) l =
      (match mkRegValue (hexToNat hx) with
       | some rv => .ok (bps, some { line := c.line, registers := insertReg c.registers nm rv })
       | none => .error "OverflowError: int too big to convert") := by
  have hne : (trimC l).isEmpty = false := by
    cases he : (trimC l).isEmpty
    · rfl
    · rw [List.isEmpty_iff] at he
      rw [he] at hreg
      exact Option.noConfusion hreg
  simp only [stepLine]
  rw [if_neg (by simp [hne]), hbp, hreg]

/-- The number of blocks tracked by a parser state. -/
def stateCount (bps : List Breakpoint) (cur : Option Breakpoint) : Nat :=
  bps.length + cur.toList.length

lemma stepLine_count {l : List Char} {bps bps' : List Breakpoint}
    {cur cur' : Option Breakpoint}
    (hs : stepLine bps cur l = .ok (bps', cur')) :
    stateCount bps' cur' =
      stateCount bps cur + (if (bpMatch (trimC l)).isSome then 1 else 0) := by
  by_cases he : (trimC l).isEmpty = true
  · rw [stepLine_blank he] at hs
    obtain ⟨h1, h2⟩ := Prod.mk.injEq .. ▸ Except.ok.inj hs
    rw [← h1, ← h2, bpMatch_none_of_empty he]
    simp [stateCount]
  · cases hbp : bpMatch (trimC l) with
    | some n =>
      rw [stepLine_header hbp] at hs
      obtain ⟨h1, h2⟩ := Prod.mk.injEq .. ▸ Except.ok.inj hs
      rw [← h1, ← h2]
      simp [stateCount]
    | none =>
      cases hreg : regMatchO (trimC l) with
      | none =>
        rw [stepLine_ignore hbp hreg] at hs
        obtain ⟨h1, h2⟩ := Prod.mk.injEq .. ▸ Except.ok.inj hs
        rw [← h1, ← h2]
        simp
      | some p =>
        obtain ⟨nm, hx⟩ := p
        cases cur with
        | none =>
          rw [stepLine_reg_idle hbp hreg] at hs
          obtain ⟨h1, h2⟩ := Prod.mk.injEq .. ▸ Except.ok.inj hs
          rw [← h1, ← h2]
          simp
        | some c =>
          rw [stepLine_reg_inblock hbp hreg] at hs
          cases hmk : mkRegValue (hexToNat hx) with
          | none =>
            rw [hmk] at hs
            exact Except.noConfusion hs
          | some rv =>
            rw [hmk] at hs
            obtain ⟨h1, h2⟩ := Prod.mk.injEq .. ▸ Except.ok.inj hs
            rw [← h1, ← h2]
            simp [stateCount]

lemma headerCountL_cons (l : List Char) (ls : List (List Char)) :
    headerCountL (l :: ls) =
      headerCountL ls + (if (bpMatch (trimC l)).isSome then 1 else 0) := by
  rw [headerCountL, List.countP_cons, headerCountL]

lemma parseLoop_length :
    ∀ (lines : List (List Char)) (bps : List Breakpoint) (cur : Option Breakpoint)
      (out : List Breakpoint), parseLoop lines bps cur = .ok out →
      out.length = stateCount bps cur + headerCountL lines := by
  intro lines
  induction lines with
  | nil =>
    intro bps cur out h
    have h1 := Except.ok.inj h
    rw [← h1, headerCountL]
    simp [stateCount]
  | cons l ls ih =>
    intro bps cur out h
    rw [parseLoop] at h
    cases hs : stepLine bps cur l with
    | error e =>
      rw [hs] at h
      exact Except.noConfusion h
    | ok st =>
      obtain ⟨bps', cur'⟩ := st
      rw [hs] at h
      have hcount := stepLine_count hs
      have hrest := ih bps' cur' out h
      rw [hrest, hcount, headerCountL_cons]
      omega

/-- The two-state scan the parser performs, reduced to the only question
that can make it raise: does some register line accepted while a block is
open (second argument: `false` = `Idle`, `true` = `InBlock`; a header
switches to `InBlock`, and the parser never returns to `Idle`) carry a
value of 2^64 or more?  Register-pattern lines outside a block do not
count, whatever their size, because the parser never converts them. -/
def hasOverflowLine : List (List Char) → Bool → Bool
  | [], _ => false
  | l :: ls, inb =>
    if (bpMatch (trimC l)).isSome then hasOverflowLine ls true
    else
      match regMatchO (trimC l) with
      | some (_, hx) => (inb && decide (2 ^ 64 ≤ hexToNat hx)) || hasOverflowLine ls inb
      | none => hasOverflowLine ls inb

/-- The parse loop succeeds exactly when the scan reports no in-block
oversized register line, and otherwise stops with the `OverflowError`. -/
lemma parseLoop_overflow_char :
    ∀ (lines : List (List Char)) (bps : List Breakpoint) (cur : Option Breakpoint),
      (hasOverflowLine lines cur.isSome = false
          ∧ ∃ out, parseLoop lines bps cur = .ok out)
        ∨ (hasOverflowLine lines cur.isSome = true
          ∧ parseLoop lines bps cur = .error "OverflowError: int too big to convert") := by
  intro lines
  induction lines with
  | nil =>
    intro bps cur
    exact Or.inl ⟨rfl, bps ++ cur.toList, rfl⟩
  | cons l ls ih =>
    intro bps cur
    by_cases he : (trimC l).isEmpty = true
    · have hbp := bpMatch_none_of_empty he
      have hreg : regMatchO (trimC l) = none := by
        rw [List.isEmpty_iff] at he
        rw [he]
        rfl
      have hstep := stepLine_blank he bps cur
      have hhol : hasOverflowLine (l :: ls) cur.isSome = hasOverflowLine ls cur.isSome := by
        rw [hasOverflowLine, hbp, hreg]
        simp
      rcases ih bps cur with ⟨h1, out, h2⟩ | ⟨h1, h2⟩
      · exact Or.inl ⟨by rw [hhol]; exact h1, out, by rw [parseLoop, hstep]; exact h2⟩
      · exact Or.inr ⟨by rw [hhol]; exact h1, by rw [parseLoop, hstep]; exact h2⟩
    · cases hbp : bpMatch (trimC l) with
      | some n =>
        have hstep := stepLine_header hbp bps cur
        have hhol : hasOverflowLine (l :: ls) cur.isSome = hasOverflowLine ls true := by
          rw [hasOverflowLine, hbp]
          simp
        rcases ih (bps ++ cur.toList) (some { line := n, registers := [] }) with
          ⟨h1, out, h2⟩ | ⟨h1, h2⟩
        · exact Or.inl ⟨by rw [hhol]; exact h1, out, by rw [parseLoop, hstep]; exact h2⟩
        · exact Or.inr ⟨by rw [hhol]; exact h1, by rw [parseLoop, hstep]; exact h2⟩
      | none =>
        cases hreg : regMatchO (trimC l) with
        | none =>
          have hstep := stepLine_ignore hbp hreg bps cur
          have hhol : hasOverflowLine (l :: ls) cur.isSome = hasOverflowLine ls cur.isSome := by
            rw [hasOverflowLine, hbp, hreg]
            simp
          rcases ih bps cur with ⟨h1, out, h2⟩ | ⟨h1, h2⟩
          · exact Or.inl ⟨by rw [hhol]; exact h1, out, by rw [parseLoop, hstep]; exact h2⟩
          · exact Or.inr ⟨by rw [hhol]; exact h1, by rw [parseLoop, hstep]; exact h2⟩
        | some p =>
          obtain ⟨nm, hx⟩ := p
          cases cur with
          | none =>
            have hstep := stepLine_reg_idle hbp hreg bps
            have hhol : hasOverflowLine (l :: ls) (none : Option Breakpoint).isSome
                = hasOverflowLine ls false := by
              rw [hasOverflowLine, hbp, hreg]
              simp
            rcases ih bps none with ⟨h1, out, h2⟩ | ⟨h1, h2⟩
            · exact Or.inl ⟨by rw [hhol]; exact h1, out, by rw [parseLoop, hstep]; exact h2⟩
            · exact Or.inr ⟨by rw [hhol]; exact h1, by rw [parseLoop, hstep]; exact h2⟩
          | some c =>
            by_cases hv : hexToNat hx < 2 ^ 64
            · obtain ⟨rv, hrv⟩ := mkRegValue_of_lt hv
              have hstep : stepLine bps (some c) l
                  = .ok (bps, some { line := c.line, registers := insertReg c.registers nm rv }) := by
                rw [stepLine_reg_inblock hbp hreg, hrv]
              have hnge : ¬ 2 ^ 64 ≤ hexToNat hx := by omega
              have hhol : hasOverflowLine (l :: ls) (some c).isSome
                  = hasOverflowLine ls true := by
                rw [hasOverflowLine, hbp, hreg]
                simp [hnge]
                exact fun h => absurd h hnge
              rcases ih bps (some { line := c.line, registers := insertReg c.registers nm rv })
                with ⟨h1, out, h2⟩ | ⟨h1, h2⟩
              · exact Or.inl ⟨by rw [hhol]; exact h1, out, by rw [parseLoop, hstep]; exact h2⟩
              · exact Or.inr ⟨by rw [hhol]; exact h1, by rw [parseLoop, hstep]; exact h2⟩
            · have hge : 2 ^ 64 ≤ hexToNat hx := by omega
              have hmk : mkRegValue (hexToNat hx) = none := by
                rw [mkRegValue, u64_to_bytes_le, if_neg hv]
              have hstep : stepLine bps (some c) l
                  = .error "OverflowError: int too big to convert" := by
                rw [stepLine_reg_inblock hbp hreg, hmk]
              refine Or.inr ⟨?_, ?_⟩
              · rw [hasOverflowLine, hbp, hreg]
                simp [hge]
                exact Or.inl hge
              · rw [parseLoop, hstep]

lemma stepLine_idle_stays {l : List Char} (hbp : bpMatch (trimC l) = none)
    (bps : List Breakpoint) :
    stepLine bps none l = .ok (bps, none) := by
  by_cases he : (trimC l).isEmpty = true
  · exact stepLine_blank he bps none
  · cases hreg : regMatchO (trimC l) with
    | none => exact stepLine_ignore hbp hreg bps none
    | some p =>
      obtain ⟨nm, hx⟩ := p
      exact stepLine_reg_idle hbp hreg bps

lemma parseLoop_no_header :
    ∀ (lines : List (List Char)) (bps : List Breakpoint),
      (∀ l ∈ lines, (bpMatch (trimC l)).isSome = false) →
      parseLoop lines bps none = .ok bps := by
  intro lines
  induction lines with
  | nil => exact fun bps _ => by rw [parseLoop]; simp
  | cons l ls ih =>
    intro bps hv
    have hbp : bpMatch (trimC l) = none := by
      have := hv l (List.mem_cons_self l ls)
      cases hb : bpMatch (trimC l)
      · rfl
      · rw [hb] at this
        exact absurd this (by simp)
    rw [parseLoop, stepLine_idle_stays hbp]
    exact ih bps (fun x hx => hv x (List.mem_cons_of_mem l hx))

/-! ### The stored-representation invariant -/

/-- The relation the spec asserts between the unsigned and signed views of
any stored register value. -/
def goodRV (rv : RegValue) : Prop :=
  rv.u64 < 2 ^ 64 ∧
    rv.i64 = (if 2 ^ 63 ≤ rv.u64 then (rv.u64 : Int) - 2 ^ 64 else (rv.u64 : Int))

/-- All register values stored in a block satisfy `goodRV`. -/
def goodBP (b : Breakpoint) : Prop := ∀ p ∈ b.registers, goodRV p.2

lemma mkRegValue_good {u : Nat} {rv : RegValue} (h : mkRegValue u = some rv) :
    goodRV rv := by
  obtain ⟨hu, h1, h2⟩ := mkRegValue_spec h
  constructor
  · rw [h1]
    exact hu
  · rw [h1]
    exact h2

lemma insertReg_good {regs : List (String × RegValue)} {nm : String} {rv : RegValue}
    (hregs : ∀ p ∈ regs, goodRV p.2) (hrv : goodRV rv) :
    ∀ p ∈ insertReg regs nm rv, goodRV p.2 := by
  intro p hp
  rw [insertReg] at hp
  split at hp
  · obtain ⟨q, hq, hpq⟩ := List.mem_map.mp hp
    by_cases hq1 : (q.1 == nm) = true
    · rw [if_pos hq1] at hpq
      rw [← hpq]
      exact hrv
    · rw [if_neg hq1] at hpq
      rw [← hpq]
      exact hregs q hq
  · rcases List.mem_append.mp hp with h | h
    · exact hregs p h
    · have : p = (nm, rv) := by simpa using h
      rw [this]
      exact hrv

lemma stepLine_good {l : List Char} {bps bps' : List Breakpoint}
    {cur cur' : Option Breakpoint}
    (hs : stepLine bps cur l = .ok (bps', cur'))
    (hb : ∀ b ∈ bps, goodBP b) (hc : ∀ b, cur = some b → goodBP b) :
    (∀ b ∈ bps', goodBP b) ∧ (∀ b, cur' = some b → goodBP b) := by
  by_cases he : (trimC l).isEmpty = true
  · rw [stepLine_blank he] at hs
    obtain ⟨h1, h2⟩ := Prod.mk.injEq .. ▸ Except.ok.inj hs
    rw [← h1, ← h2]
    exact ⟨hb, hc⟩
  · cases hbp : bpMatch (trimC l) with
    | some n =>
      rw [stepLine_header hbp] at hs
      obtain ⟨h1, h2⟩ := Prod.mk.injEq .. ▸ Except.ok.inj hs
      rw [← h1, ← h2]
      constructor
      · intro b hbmem
        rcases List.mem_append.mp hbmem with hmem | hmem
        · exact hb b hmem
        · cases cur with
          | none => simp at hmem
          | some c =>
            have : b = c := by simpa using hmem
            rw [this]
            exact hc c rfl
      · intro b hbeq
        have : b = { line := n, registers := [] } := by
          exact (Option.some.inj hbeq).symm
        rw [this]
        intro p hp
        simp at hp
    | none =>
      cases hreg : regMatchO (trimC l) with
      | none =>
        rw [stepLine_ignore hbp hreg] at hs
        obtain ⟨h1, h2⟩ := Prod.mk.injEq .. ▸ Except.ok.inj hs
        rw [← h1, ← h2]
        exact ⟨hb, hc⟩
      | some p =>
        obtain ⟨nm, hx⟩ := p
        cases cur with
        | none =>
          rw [stepLine_reg_idle hbp hreg] at hs
          obtain ⟨h1, h2⟩ := Prod.mk.injEq .. ▸ Except.ok.inj hs
          rw [← h1, ← h2]
          exact ⟨hb, fun b hbeq => Option.noConfusion hbeq⟩
        | some c =>
          rw [stepLine_reg_inblock hbp hreg] at hs
          cases hmk : mkRegValue (hexToNat hx) with
          | none =>
            rw [hmk] at hs
            exact Except.noConfusion hs
          | some rv =>
            rw [hmk] at hs
            obtain ⟨h1, h2⟩ := Prod.mk.injEq .. ▸ Except.ok.inj hs
            rw [← h1, ← h2]
            refine ⟨hb, ?_⟩
            intro b hbeq
            have hbc := (Option.some.inj hbeq).symm
            rw [hbc]
            intro q hq
            exact insertReg_good (hc c rfl) (mkRegValue_good hmk) q hq

lemma parseLoop_good :
    ∀ (lines : List (List Char)) (bps : List Breakpoint) (cur : Option Breakpoint)
      (out : List Breakpoint), parseLoop lines bps cur = .ok out →
      (∀ b ∈ bps, goodBP b) → (∀ b, cur = some b → goodBP b) →
      ∀ b ∈ out, goodBP b := by
  intro lines
  induction lines with
  | nil =>
    intro bps cur out h hb hc b hbmem
    have h1 := Except.ok.inj h
    rw [← h1] at hbmem
    rcases List.mem_append.mp hbmem with hmem | hmem
    · exact hb b hmem
    · cases cur with
      | none => simp at hmem
      | some c =>
        have : b = c := by simpa using hmem
        rw [this]
        exact hc c rfl
  | cons l ls ih =>
    intro bps cur out h hb hc
    rw [parseLoop] at h
    cases hs : stepLine bps cur l with
    | error e =>
      rw [hs] at h
      exact Except.noConfusion h
    | ok st =>
      obtain ⟨bps', cur'⟩ := st
      rw [hs] at h
      obtain ⟨hb', hc'⟩ := stepLine_good hs hb hc
      exact ih bps' cur' out h hb' hc'

/-! ## Claim theorems -/

/-- C1 (counterexample).  The claim "for every raw dump text the parser
returns one record per header line, never an error" fails: on a dump whose
single block holds a register value of 17 hex digits (≥ 2^64), the header
count is 1 but the parser raises `OverflowError` from `u64_to_bytes_le`
and returns nothing. -/
theorem parse_headerCount_counterexample :
    parse_register_dump "=== Breakpoint at line 1 ===\nrax: 0x10000000000000000"
      = .error "OverflowError: int too big to convert"
    ∧ headerCount "=== Breakpoint at line 1 ===\nrax: 0x10000000000000000" = 1 :=
  ⟨rfl, rfl⟩

/-- C1 (amended).  Whenever `parse_register_dump` returns a result, the
number of `CapturedBreakpoint` records equals the number of header lines
of the input, regardless of malformed or missing register lines; and a
dump with no header lines always yields the empty sequence, not an
error. -/
theorem parse_length_eq_headerCount :
    (∀ (raw : String) (bps : List Breakpoint),
      parse_register_dump raw = .ok bps → bps.length = headerCount raw)
    ∧ (∀ raw : String, headerCount raw = 0 → parse_register_dump raw = .ok []) := by
  constructor
  · intro raw bps h
    rw [parse_register_dump] at h
    have hlen := parseLoop_length _ _ _ _ h
    rw [hlen, headerCount]
    simp [stateCount]
  · intro raw h
    rw [headerCount, headerCountL] at h
    rw [parse_register_dump]
    refine parseLoop_no_header _ _ ?_
    intro l hl
    have hmem := List.countP_eq_zero.mp h l hl
    simpa using hmem

/-- C1 (witness): a headerless noisy dump parses to the empty sequence. -/
theorem parse_length_eq_headerCount_witness :
    parse_register_dump "(gdb) some banner\nrcx: 0x2\nexited normally" = .ok [] :=
  parse_length_eq_headerCount.2 "(gdb) some banner\nrcx: 0x2\nexited normally" rfl

/-- C3 (counterexample).  The claim "the Dump Parser is total and never
fails, including on register lines with arbitrarily many hex digits" is
false: an in-block register line with value `0x1ffffffffffffffff`
(> 2^64-1) makes `u64_to_bytes_le` raise `OverflowError`. -/
theorem parse_raises_counterexample :
    parse_register_dump "=== Breakpoint at line 7 ===\nrbx: 0x1ffffffffffffffff"
      = .error "OverflowError: int too big to convert" := rfl

/-- C3 (amended).  The parser returns a result on exactly the inputs
where no register line accepted while a block is open carries a value of
2^64 or more: if the two-state scan finds no such in-block line the
parser succeeds (register-pattern lines outside any block are ignored
whatever their size, as are banners and other noise), and conversely
every failure is the `OverflowError` from such an in-block line.  A line
matching neither pattern is ignored in either state: it leaves the
parser state untouched. -/
theorem parse_never_fails_on_bounded_values :
    (∀ raw : String, hasOverflowLine (splitLinesC raw.data) false = false →
      ∃ bps, parse_register_dump raw = .ok bps)
    ∧ (∀ raw e : String, parse_register_dump raw = .error e →
        hasOverflowLine (splitLinesC raw.data) false = true
          ∧ e = "OverflowError: int too big to convert")
    ∧ (∀ (bps : List Breakpoint) (cur : Option Breakpoint) (l : List Char),
        bpMatch (trimC l) = none → regMatchO (trimC l) = none →
        stepLine bps cur l = .ok (bps, cur)) := by
  refine ⟨?_, ?_, ?_⟩
  · intro raw hok
    rw [parse_register_dump]
    rcases parseLoop_overflow_char (splitLinesC raw.data) [] none with
      ⟨h1, out, h2⟩ | ⟨h1, h2⟩
    · exact ⟨out, h2⟩
    · rw [show (none : Option Breakpoint).isSome = false from rfl] at h1
      rw [h1] at hok
      exact Bool.noConfusion hok
  · intro raw e herr
    rw [parse_register_dump] at herr
    rcases parseLoop_overflow_char (splitLinesC raw.data) [] none with
      ⟨h1, out, h2⟩ | ⟨h1, h2⟩
    · rw [h2] at herr
      exact Except.noConfusion herr
    · rw [h2] at herr
      exact ⟨h1, (Except.error.inj herr).symm⟩
  · intro bps cur l h1 h2
    exact stepLine_ignore h1 h2 bps cur

/-- C3 (witness): an oversized register line before the first header is
ignored (the parser is still `Idle` there), so this dump parses
successfully even though its first line carries a 17-digit value. -/
theorem parse_never_fails_witness :
    ∃ bps, parse_register_dump
      "rbx: 0x1ffffffffffffffff\n=== Breakpoint at line 1 ===\nrax: 0x1" = .ok bps :=
  parse_never_fails_on_bounded_values.1
    "rbx: 0x1ffffffffffffffff\n=== Breakpoint at line 1 ===\nrax: 0x1" (by decide)

/-- The record the parser stores for `rax: 0xffffffffffffffff`. -/
def rvAllOnes : RegValue :=
  { hex := "0xffffffffffffffff", u64 := 18446744073709551615, i64 := -1,
    bytes_le := "ff ff ff ff ff ff ff ff", ascii_le := "........" }

/-- The block the parser yields for a one-register all-ones dump. -/
def bpAllOnes : Breakpoint := { line := 3, registers := [("rax", rvAllOnes)] }

/-- C4.  Every register value stored by the Dump Parser is below 2^64 and
its signed view is the unsigned value when the most-significant bit (bit
63) is clear — i.e. when the value is below 2^63 — and the unsigned value
minus 2^64 otherwise; in particular `0xffffffffffffffff` parses to
`u64 = 18446744073709551615` with `i64 = -1`. -/
theorem parse_signed_view :
    (∀ (raw : String) (bps : List Breakpoint), parse_register_dump raw = .ok bps →
      ∀ b ∈ bps, ∀ p ∈ b.registers,
        p.2.u64 < 2 ^ 64 ∧
          p.2.i64 = (if 2 ^ 63 ≤ p.2.u64 then (p.2.u64 : Int) - 2 ^ 64 else (p.2.u64 : Int)))
    ∧ parse_register_dump "=== Breakpoint at line 3 ===\nrax: 0xffffffffffffffff"
        = .ok [bpAllOnes] := by
  constructor
  · intro raw bps h b hb p hp
    rw [parse_register_dump] at h
    exact parseLoop_good _ [] none bps h (by simp)
      (fun c hceq => Option.noConfusion hceq) b hb p hp
  · rfl

/-- C4 (witness): the signed-view relation evaluated at the all-ones
record stored by the parser. -/
theorem parse_signed_view_witness :
    rvAllOnes.u64 < 2 ^ 64 ∧
      rvAllOnes.i64 =
        (if 2 ^ 63 ≤ rvAllOnes.u64 then (rvAllOnes.u64 : Int) - 2 ^ 64
         else (rvAllOnes.u64 : Int)) :=
  parse_signed_view.1 "=== Breakpoint at line 3 ===\nrax: 0xffffffffffffffff"
    [bpAllOnes] rfl bpAllOnes (by simp) ("rax", rvAllOnes) (by simp [bpAllOnes])

/-- C5.  A register is tracked iff its field has a colon and the stripped
flag after the colon is exactly `1`; any other flag, and any field without
a colon, is skipped without an error (the register fields can never make
`parse_config_line` fail once the `line:` field is valid); e.g.
`line:9, rax:1, rbx:0` yields line 9 with tracked registers `["rax"]`. -/
theorem config_flag_tracking :
    parse_config_line "line:9, rax:1, rbx:0" = .ok (9, ["rax"])
    ∧ (∀ rest : List (List Char), (parse_config_parts ("line:9".data :: rest)).isOk = true)
    ∧ (∀ item : List Char, splitFirstColon item = none → trackItem item = none)
    ∧ (∀ item r f : List Char, splitFirstColon item = some (r, f) →
        (trackItem item = some (trimC r).asString ↔ trimC f = "1".data)) := by
  refine ⟨rfl, fun rest => rfl, ?_, ?_⟩
  · intro item h
    rw [trackItem, h]
  · intro item r f h
    by_cases hf : trimC f = "1".data
    · simp [trackItem, h, hf]
    · simp [trackItem, h, hf]

/-- C5 (witness): the general parts of C5 evaluated at a colonless field
and at a `rbx:0` field. -/
theorem config_flag_tracking_witness :
    (parse_config_parts ("line:9".data :: ["rbx:0".data])).isOk = true
    ∧ trackItem "rax".data = none
    ∧ (trackItem "rbx:0".data = some (trimC "rbx".data).asString
        ↔ trimC "0".data = "1".data) :=
  ⟨config_flag_tracking.2.1 ["rbx:0".data],
   config_flag_tracking.2.2.1 "rax".data rfl,
   config_flag_tracking.2.2.2 "rbx:0".data "rbx".data "0".data rfl⟩

/-- C6 (counterexample).  The claim "trackedRegisters never contains
duplicates" is false: repeating a register with flag `1` keeps both
occurrences, since `parse_config_line` appends to a plain list. -/
theorem config_duplicates_counterexample :
    ∃ tracked : List String,
      parse_config_line "line:9, rax:1, rax:1" = .ok (9, tracked) ∧ ¬ tracked.Nodup :=
  ⟨["rax", "rax"], rfl, by decide⟩

/-- C6 (amended).  The tracked-register sequence keeps one entry per
flag-`1` field, duplicates included: for every register name, its
multiplicity in `trackedRegisters` equals the number of register fields
of the line that track it.  (Deduplication happens only later, in the
dump parser's per-block register map.) -/
theorem config_tracked_multiplicity :
    ∀ (raw : String) (n : Nat) (tracked : List String),
      parse_config_line raw = .ok (n, tracked) →
      ∀ reg : String,
        tracked.count reg
          = ((configParts raw).drop 1).countP (fun item => trackItem item == some reg) := by
  intro raw n tracked h reg
  rw [parse_config_line] at h
  cases hp : configParts raw with
  | nil =>
    rw [hp, parse_config_parts] at h
    exact Except.noConfusion h
  | cons p0 rest =>
    rw [hp] at h
    simp only [parse_config_parts] at h
    cases he : expectLit "line:".data p0 with
    | none =>
      rw [he] at h
      exact Except.noConfusion h
    | some afterTag =>
      rw [he] at h
      split at h
      · exact Except.noConfusion h
      · split at h
        · exact Except.noConfusion h
        · split at h
          · exact Except.noConfusion h
          · obtain ⟨hn, ht⟩ := Prod.mk.injEq .. ▸ Except.ok.inj h
            rw [← ht]
            simp only [List.drop_succ_cons, List.drop_zero]
            exact List.count_filterMap reg trackItem rest

/-- C6 (amended, witness): multiplicity evaluated on the duplicated
line. -/
theorem config_tracked_multiplicity_witness :
    (["rax", "rax"] : List String).count "rax"
      = ((configParts "line:9, rax:1, rax:1").drop 1).countP
          (fun item => trackItem item == some "rax") :=
  config_tracked_multiplicity "line:9, rax:1, rax:1" 9 ["rax", "rax"] rfl "rax"

/-- C2 (counterexample).  The claim "every register line the generated
script prints matches the orchestrator's `_REG_RE`" is false: the line
printed for register `rax` holding 1 is `rax: 1`, and `_REG_RE` demands a
literal `0x` prefix that the `%lx` directive never emits. -/
theorem genRegLine_not_0x_counterexample :
    regMatchO (genRegLine "rax" 1).data = none := rfl

/-- C2 (amended).  For every tracked register name (a letter followed by
1–4 letters or digits) and every 64-bit value, the register line printed
by the generated response block matches the sandbox-side Dump Parser's
`REG_RE` (`<name>: <hex digits>`), capturing exactly the name and the hex
rendering of the value — but it never matches the orchestrator's
`_REG_RE`, which requires a `0x` prefix absent from `%lx` output. -/
theorem genRegLine_matches_sandbox_parser_only :
    ∀ (c : Char) (rest : List Char) (v : Nat),
      isAlphaC c = true → rest.all isAlnumC = true →
      1 ≤ rest.length → rest.length ≤ 4 → v < 2 ^ 64 →
      regMatchS (genRegLine (c :: rest).asString v).data
          = some ((c :: rest).asString, (natToHex v).data)
      ∧ regMatchO (genRegLine (c :: rest).asString v).data = none := by
  intro c rest v hc hrest hlen1 hlen4 hv
  have hdata : (genRegLine (c :: rest).asString v).data
      = c :: (rest ++ ':' :: ' ' :: (natToHex v).data) := by
    rw [genRegLine, String.data_append, String.data_append, data_asString]
    simp
  have hhex : ((natToHex v).data).all isHexC = true := natToHex_all_hex v
  have hnil : (natToHex v).data ≠ [] := natToHex_ne_nil v
  have htake : (rest ++ ':' :: ' ' :: (natToHex v).data).takeWhile isAlnumC = rest :=
    takeWhile_append_of_all hrest (by decide)
  have hdrop : (rest ++ ':' :: ' ' :: (natToHex v).data).dropWhile isAlnumC
      = ':' :: ' ' :: (natToHex v).data :=
    dropWhile_append_of_all hrest (by decide)
  have hlen : (1 ≤ rest.length && rest.length ≤ 4) = true := by
    simp [hlen1, hlen4]
  have hdws : dropWS (natToHex v).data = (natToHex v).data := dropWS_of_all_hex hhex
  have hhtake : ((natToHex v).data).takeWhile isHexC = (natToHex v).data :=
    takeWhile_of_all hhex
  have hhdrop : ((natToHex v).data).dropWhile isHexC = [] := dropWhile_of_all hhex
  have hhne : ((natToHex v).data).isEmpty = false := by
    cases hd : (natToHex v).data with
    | nil => exact absurd hd hnil
    | cons a t => rfl
  have hdws2 : dropWS (' ' :: (natToHex v).data) = (natToHex v).data := by
    rw [dropWS, List.dropWhile_cons, if_pos (show isWS ' ' = true by decide)]
    exact hdws
  constructor
  · rw [hdata]
    simp only [regMatchS, hc, if_true, htake, hdrop, hlen, ws1,
               show isWS ' ' = true from rfl, hdws, hhtake, hhdrop, hhne]
    simp
  · rw [hdata]
    simp only [regMatchO, hc, if_true, htake, hdrop, hlen]
    rw [hdws2]
    cases hd : (natToHex v).data with
    | nil => exact absurd hd hnil
    | cons a t =>
      cases t with
      | nil =>
        split
        · rename_i r5 heq
          have htail := (List.cons.injEq .. ▸ heq).2
          exact absurd htail (by simp)
        · rfl
      | cons b t2 =>
        have hb : isHexC b = true := by
          rw [hd] at hhex
          simp only [List.all_cons, Bool.and_eq_true] at hhex
          exact hhex.2.1
        split
        · rename_i r5 heq
          have h1 := (List.cons.injEq .. ▸ heq).2
          have h2 := (List.cons.injEq .. ▸ h1).1
          rw [h2] at hb
          exact absurd hb (by decide)
        · rfl

/-- C2 (witness): the line printed for `rbx` holding `0xff` is accepted
by the sandbox parser and rejected by the orchestrator parser. -/
theorem genRegLine_matches_sandbox_parser_only_witness :
    regMatchS (genRegLine ('r' :: ['b', 'x']).asString 255).data
        = some (('r' :: ['b', 'x']).asString, (natToHex 255).data)
      ∧ regMatchO (genRegLine ('r' :: ['b', 'x']).asString 255).data = none :=
  genRegLine_matches_sandbox_parser_only 'r' ['b', 'x'] 255 (by decide) (by decide)
    (by decide) (by decide) (by decide)

/-- C7.  When the external steps up to execution succeed but retrieval of
either expected artifact fails, `run_job` raises `MissingArtifact`
bundling the diagnostic log captured from the execution step — for any
pipeline exit code, including nonzero ones (`execCode` is unconstrained
here), so the missing artifact takes priority over the exit status. -/
theorem run_job_missing_artifact :
    ∀ (image : String) (env : ExecEnv) (k : Bool),
      env.asmExists = true → env.linesExists = true → env.createOk = true →
      (trimC env.createStdout.data).isEmpty = false → env.startOk = true →
      env.cpAsmOk = true → env.cpLinesOk = true →
      (env.cpProgOk = false ∨ env.cpRegOk = false) →
      (run_job image env k).1
        = .error (.missingArtifact
            (if env.cpProgOk then .registerDump else .programOutput) (jobLogs env)) := by
  intro image env k h1 h2 h3 h4 h5 h6 h7 h8
  rw [run_job]
  rw [if_neg (by simp [h1]), if_neg (by simp [h2])]
  show jobBody image env = _
  rw [jobBody]
  rw [if_neg (by simp [h3]), if_neg (by simp [h4]), if_neg (by simp [h5]),
      if_neg (by simp [h6]), if_neg (by simp [h7])]
  rcases h8 with h8 | h8
  · rw [if_pos (by simp [h8]), h8]
    simp
  · by_cases hp : env.cpProgOk = true
    · rw [if_neg (by simp [hp]), if_pos (by simp [h8]), hp]
      simp
    · have hp' : env.cpProgOk = false := by
        cases hb : env.cpProgOk
        · rfl
        · exact absurd hb hp
      rw [if_pos (by simp [hp']), hp']
      simp

/-- A fully healthy environment used to instantiate the orchestrator
theorems, with one switch flipped per witness. -/
def envOk : ExecEnv :=
  { asmExists := true, linesExists := true, createOk := true,
    createStdout := "abc123\n", startOk := true, cpAsmOk := true,
    cpLinesOk := true, execCode := 0, execStdout := "step log",
    execStderr := "", cpProgOk := true, cpRegOk := true,
    progText := "hello", regText := "=== Breakpoint at line 9 ===\nrax: 0x1",
    rmFails := false, rmtreeFails := false }

/-- C7 (witness): with the register-dump retrieval failing and a nonzero
exit code, the outcome is `MissingArtifact` with the captured log. -/
theorem run_job_missing_artifact_witness :
    (run_job "img" { envOk with cpRegOk := false, execCode := 3 } false).1
      = .error (.missingArtifact
          (if ({ envOk with cpRegOk := false, execCode := 3 } : ExecEnv).cpProgOk
           then .registerDump else .programOutput)
          (jobLogs { envOk with cpRegOk := false, execCode := 3 })) :=
  run_job_missing_artifact "img" { envOk with cpRegOk := false, execCode := 3 } false
    rfl rfl rfl rfl rfl rfl rfl (Or.inr rfl)

/-- C8.  With both artifacts retrieved and a nonzero exit code, `run_job`
fails with `ExecutionFailure` carrying the exit code, the diagnostic log,
the program output and the register dump — and it can only do so after
the dump has been parsed: whenever the outcome is `ExecutionFailure`, the
dump parser succeeded on the register text and the attached strings are
exactly the program output, register dump and log. -/
theorem run_job_execution_failure :
    (∀ (image : String) (env : ExecEnv) (k : Bool) (bps : List Breakpoint),
      env.asmExists = true → env.linesExists = true → env.createOk = true →
      (trimC env.createStdout.data).isEmpty = false → env.startOk = true →
      env.cpAsmOk = true → env.cpLinesOk = true →
      env.cpProgOk = true → env.cpRegOk = true →
      parse_register_dump env.regText = .ok bps → env.execCode ≠ 0 →
      (run_job image env k).1
        = .error (.executionFailure env.execCode (jobLogs env) env.progText env.regText))
    ∧ (∀ (image : String) (env : ExecEnv) (k : Bool) (ec : Int) (l s r : String),
        (run_job image env k).1 = .error (.executionFailure ec l s r) →
        (∃ bps, parse_register_dump env.regText = .ok bps)
          ∧ s = env.progText ∧ r = env.regText ∧ l = jobLogs env) := by
  constructor
  · intro image env k bps h1 h2 h3 h4 h5 h6 h7 h8 h9 hparse hcode
    rw [run_job]
    rw [if_neg (by simp [h1]), if_neg (by simp [h2])]
    show jobBody image env = _
    rw [jobBody]
    rw [if_neg (by simp [h3]), if_neg (by simp [h4]), if_neg (by simp [h5]),
        if_neg (by simp [h6]), if_neg (by simp [h7]), if_neg (by simp [h8]),
        if_neg (by simp [h9])]
    simp only [hparse]
    rw [if_pos hcode]
  · intro image env k ec l s r h
    rw [run_job] at h
    by_cases h1 : env.asmExists = true
    · rw [if_neg (by simp [h1])] at h
      by_cases h2 : env.linesExists = true
      · rw [if_neg (by simp [h2])] at h
        replace h : jobBody image env = .error (.executionFailure ec l s r) := h
        rw [jobBody] at h
        split at h
        · exact absurd (Except.error.inj h) (by simp)
        · split at h
          · exact absurd (Except.error.inj h) (by simp)
          · split at h
            · exact absurd (Except.error.inj h) (by simp)
            · split at h
              · exact absurd (Except.error.inj h) (by simp)
              · split at h
                · exact absurd (Except.error.inj h) (by simp)
                · split at h
                  · exact absurd (Except.error.inj h) (by simp)
                  · split at h
                    · exact absurd (Except.error.inj h) (by simp)
                    · split at h
                      · exact absurd (Except.error.inj h) (by simp)
                      · rename_i bps heq
                        split at h
                        · obtain ⟨hec, hl, hs, hr⟩ :=
                            JobError.executionFailure.injEq .. ▸ (Except.error.inj h)
                          exact ⟨⟨bps, heq⟩, hs.symm, hr.symm, hl.symm⟩
                        · exact Except.noConfusion h
      · rw [if_pos (by simp [h2])] at h
        exact absurd (Except.error.inj h) (by simp)
    · rw [if_pos (by simp [h1])] at h
      exact absurd (Except.error.inj h) (by simp)

/-- C8 (witness): a nonzero exit with both artifacts present yields
`ExecutionFailure` with the parsed-before-raise guarantee. -/
theorem run_job_execution_failure_witness :
    (run_job "img" { envOk with execCode := 2 } false).1
      = .error (.executionFailure ({ envOk with execCode := 2 } : ExecEnv).execCode
          (jobLogs { envOk with execCode := 2 })
          ({ envOk with execCode := 2 } : ExecEnv).progText
          ({ envOk with execCode := 2 } : ExecEnv).regText) :=
  run_job_execution_failure.1 "img" { envOk with execCode := 2 } false
    [{ line := 9, registers := [("rax",
      { hex := "0x0000000000000001", u64 := 1, i64 := 1,
        bytes_le := "01 00 00 00 00 00 00 00", ascii_le := "........" })] }]
    rfl rfl rfl rfl rfl rfl rfl rfl rfl rfl (by decide)

/-- C9.  The outcome of `run_job` never depends on whether the two
teardown actions fail (their exceptions are swallowed), and on every path
past the input checks the temporary directory is allocated and its
release attempted; whenever a container was created, its release is
attempted as well — on success paths and error paths alike. -/
theorem run_job_cleanup_guarantee :
    (∀ (image : String) (env : ExecEnv) (k b b' : Bool),
      (run_job image (withCleanupFlags env b b') k).1 = (run_job image env k).1)
    ∧ (∀ (image : String) (env : ExecEnv),
        env.asmExists = true → env.linesExists = true →
        (run_job image env false).2.tmpAllocated = true
          ∧ (run_job image env false).2.tmpReleaseAttempted = true)
    ∧ (∀ (image : String) (env : ExecEnv),
        env.asmExists = true → env.linesExists = true →
        (run_job image env false).2.containerCreated = true →
        (run_job image env false).2.containerReleaseAttempted = true) := by
  refine ⟨?_, ?_, ?_⟩
  · intro image env k b b'
    cases env
    simp only [withCleanupFlags, run_job]
    split_ifs <;> rfl
  · intro image env h1 h2
    rw [run_job, if_neg (by simp [h1]), if_neg (by simp [h2])]
    exact ⟨rfl, rfl⟩
  · intro image env h1 h2 hc
    rw [run_job, if_neg (by simp [h1]), if_neg (by simp [h2])]
    rw [run_job, if_neg (by simp [h1]), if_neg (by simp [h2])] at hc
    exact hc

/-- C9 (witness): outcome unchanged when both teardown actions fail, and
the releases are attempted on a healthy run. -/
theorem run_job_cleanup_guarantee_witness :
    (run_job "img" (withCleanupFlags envOk true true) false).1
        = (run_job "img" envOk false).1
      ∧ (run_job "img" envOk false).2.tmpAllocated = true
      ∧ (run_job "img" envOk false).2.tmpReleaseAttempted = true :=
  ⟨run_job_cleanup_guarantee.1 "img" envOk false true true,
   (run_job_cleanup_guarantee.2.1 "img" envOk rfl rfl).1,
   (run_job_cleanup_guarantee.2.1 "img" envOk rfl rfl).2⟩

/-- C10.  A missing input path makes `run_job` fail with the
corresponding file-not-found error before anything is acquired: the
returned cleanup record is `noCleanup` — no temporary directory, no
container, nothing to release. -/
theorem run_job_input_check_first :
    ∀ (image : String) (env : ExecEnv) (k : Bool),
      (env.asmExists = false →
        (run_job image env k).1 = .error (.fileNotFound .asm)
          ∧ (run_job image env k).2 = noCleanup)
      ∧ (env.asmExists = true → env.linesExists = false →
        (run_job image env k).1 = .error (.fileNotFound .linesTxt)
          ∧ (run_job image env k).2 = noCleanup) := by
  intro image env k
  constructor
  · intro h1
    rw [run_job, if_pos (by simp [h1])]
    exact ⟨rfl, rfl⟩
  · intro h1 h2
    rw [run_job, if_neg (by simp [h1]), if_pos (by simp [h2])]
    exact ⟨rfl, rfl⟩

/-- C10 (witness): a missing assembly file yields `FileNotFoundError`
with the no-acquisition cleanup record. -/
theorem run_job_input_check_first_witness :
    (run_job "img" { envOk with asmExists := false } true).1
        = .error (.fileNotFound .asm)
      ∧ (run_job "img" { envOk with asmExists := false } true).2 = noCleanup :=
  (run_job_input_check_first "img" { envOk with asmExists := false } true).1 rfl

end Slait
